import Mathlib

/-!
Shallow embedding of the storage core of the Ry_TSDB time-series database
(bit-level Gorilla codec, WAL record format, SSTable layout, and the store's
write/query path), together with theorems settling the specification claims.

Modelling conventions:
* Machine integers are `Nat` (for `u64`/`u32`/`u8` values) and `Int` (for
  `i64` values), with wrap-around applied exactly where Rust release-mode
  semantics wraps: add/sub wrap modulo the width, and shift amounts are
  masked modulo the bit width (Rust `<<`/`>>` with overflow checks off).
* `f64` values are represented by their IEEE-754 bit patterns as `Nat`:
  the code under study never performs floating arithmetic on them, it only
  stores, moves, XORs and byte-serializes the bit patterns.
* Strings are byte lists (`List Nat`); hash maps are association lists whose
  order stands for the map's iteration order.
* Loops are structural recursions; where the source loop count is data-driven
  a fuel argument bounds the recursion, chosen large enough that the fuel
  never runs out on the executions the theorems talk about.
-/

deriving instance DecidableEq for Except

set_option synthInstance.maxSize 1024

namespace RyTSDB

abbrev Byte := Nat

/-- Rust release-mode `u64` left shift: the shift amount is masked mod 64 and
the result wraps mod 2^64. -/
def shl64 (x s : Nat) : Nat := (x <<< (s % 64)) % 2 ^ 64

/-- Rust release-mode `u64` right shift: the shift amount is masked mod 64. -/
def shr64 (x s : Nat) : Nat := x >>> (s % 64)

/-- Rust release-mode `u8` wrapping subtraction. -/
def subU8 (a b : Nat) : Nat := (a + 256 - b % 256) % 256

/-- State of `gorilla.rs::BitWriter`: emitted bytes, the bit buffer and the
`bits_in_buffer` count (a `u8`). -/
structure BitWriter where
  out : List Byte
  buffer : Nat
  bib : Nat
deriving Repr, DecidableEq

/-- The byte-draining `while` loop of `BitWriter::write_bits` (gorilla.rs:30-35):
while at least 8 bits are buffered, emit the low byte and shift.  The fuel is
the current bit count, which bounds the number of iterations. -/
def drainBytes : Nat → Nat → Nat → List Byte × Nat × Nat
  | 0, buffer, bib => ([], buffer, bib)
  | fuel + 1, buffer, bib =>
    if 8 ≤ bib then
      let (bs, b', n') := drainBytes fuel (buffer >>> 8) (bib - 8)
      (buffer % 256 :: bs, b', n')
    else ([], buffer, bib)

/-- `BitWriter::write_bits` (gorilla.rs:20-38), release semantics: the mask
`(1 << bits) - 1` wraps for `bits = 64` (becoming 0), and the shifted value is
truncated to 64 bits before being OR-ed into the buffer. -/
def BitWriter.writeBits (w : BitWriter) (value bits : Nat) : BitWriter :=
  if bits = 0 then w
  else
    let mask := shl64 1 bits - 1
    let buffer := w.buffer ||| shl64 (value &&& mask) w.bib
    let bib := (w.bib + bits) % 256
    let (bs, buffer, bib) := drainBytes bib buffer bib
    { out := w.out ++ bs, buffer := buffer, bib := bib }

/-- `BitWriter::flush` (gorilla.rs:41-49). -/
def BitWriter.flushW (w : BitWriter) : BitWriter :=
  if 0 < w.bib then { out := w.out ++ [w.buffer % 256], buffer := 0, bib := 0 }
  else w

/-- The only I/O failure a list-backed byte stream can produce is an
unexpected end of file (`read_exact` on an exhausted source). -/
inductive IOErr
  | eof
deriving Repr, DecidableEq

/-- State of `gorilla.rs::BitReader`: remaining input bytes, bit buffer and
`bits_in_buffer` (a `u8`). -/
structure BitReader where
  input : List Byte
  buffer : Nat
  bib : Nat
deriving Repr, DecidableEq

/-- The refill `while` loop of `BitReader::read_bits` (gorilla.rs:90-104):
while fewer than `bits` bits are buffered, pull one byte; at end of input,
error out if nothing is buffered, otherwise fall through with what is there.
The fuel `bits` bounds the iteration count. -/
def fillLoop : Nat → Nat → BitReader → Except IOErr BitReader
  | 0, _, r => .ok r
  | fuel + 1, bits, r =>
    if r.bib < bits then
      match r.input with
      | [] => if r.bib = 0 then .error .eof else .ok r
      | b :: rest =>
        fillLoop fuel bits
          { input := rest, buffer := r.buffer ||| shl64 b r.bib, bib := (r.bib + 8) % 256 }
    else .ok r

/-- `BitReader::read_bits` (gorilla.rs:84-113), release semantics: for
`bits = 64` the mask wraps to 0 and the buffer shift is a no-op, and
`bits_in_buffer -= bits` is a wrapping `u8` subtraction. -/
def BitReader.readBits (r : BitReader) (bits : Nat) : Except IOErr (Nat × BitReader) :=
  if bits = 0 then .ok (0, r)
  else
    match fillLoop bits bits r with
    | .error e => .error e
    | .ok r' =>
      let mask := shl64 1 bits - 1
      .ok (r'.buffer &&& mask,
        { input := r'.input, buffer := shr64 r'.buffer bits, bib := subU8 r'.bib bits })

/-! ## Gorilla codec (gorilla.rs:136-441) -/

/-- Reinterpret a `u64` value as an `i64` (two's complement). -/
def toI64 (n : Nat) : Int := if n < 2 ^ 63 then (n : Int) else (n : Int) - 2 ^ 64

/-- Wrap an integer to the `i64` range, as Rust release-mode arithmetic does. -/
def wrapI64 (x : Int) : Int := (x + 2 ^ 63) % 2 ^ 64 - 2 ^ 63

/-- Reinterpret an `i64` value as a `u64` (Rust `as u64`). -/
def fromI64 (x : Int) : Nat := (x % 2 ^ 64).toNat

/-- Bit length of a natural number (fuel-driven; fuel 64 covers `u64`). -/
def bitLen : Nat → Nat → Nat
  | 0, _ => 0
  | fuel + 1, n => if n = 0 then 0 else bitLen fuel (n / 2) + 1

/-- `u64::leading_zeros` for a 64-bit value. -/
def lz64 (x : Nat) : Nat := 64 - bitLen 64 x

/-- `u64::trailing_zeros` (fuel-driven; yields 64 on input 0 like Rust). -/
def tz64 : Nat → Nat → Nat
  | 0, _ => 0
  | fuel + 1, x => if x % 2 = 1 then 0 else tz64 fuel (x / 2) + 1

/-- State of `gorilla.rs::GorillaEncoder`; values carried as f64 bit patterns. -/
structure GorillaEncoder where
  w : BitWriter
  firstTimestamp : Nat
  prevTimestamp : Nat
  prevDelta : Int
  prevValue : Nat
  firstValue : Bool
deriving Repr, DecidableEq

def GorillaEncoder.init : GorillaEncoder :=
  { w := ⟨[], 0, 0⟩, firstTimestamp := 0, prevTimestamp := 0, prevDelta := 0
    prevValue := 0, firstValue := true }

/-- `GorillaEncoder::encode` (gorilla.rs:159-235): verbatim 64+64-bit first
point, then delta-of-delta timestamp classes and XOR-compressed value bits. -/
def GorillaEncoder.encode (e : GorillaEncoder) (ts vbits : Nat) : GorillaEncoder :=
  if e.firstValue then
    { e with
      w := (e.w.writeBits ts 64).writeBits vbits 64
      firstTimestamp := ts, prevTimestamp := ts, prevValue := vbits, firstValue := false }
  else
    let delta := wrapI64 (toI64 ts - toI64 e.prevTimestamp)
    let dod := wrapI64 (delta - e.prevDelta)
    let w :=
      if dod = 0 then e.w.writeBits 0 1
      else if -63 ≤ dod ∧ dod ≤ 64 then
        ((e.w.writeBits 2 2).writeBits (dod % 128).toNat 7)
      else if -255 ≤ dod ∧ dod ≤ 256 then
        ((e.w.writeBits 6 3).writeBits (dod % 512).toNat 9)
      else if -2047 ≤ dod ∧ dod ≤ 2048 then
        ((e.w.writeBits 14 4).writeBits (dod % 4096).toNat 12)
      else
        ((e.w.writeBits 15 4).writeBits (dod % 2 ^ 32).toNat 32)
    let xor := vbits ^^^ e.prevValue
    let w :=
      if xor = 0 then w.writeBits 0 1
      else
        let lz := lz64 xor
        let tz := tz64 64 xor
        let sig := 64 - lz - tz
        (((w.writeBits 1 1).writeBits lz 5).writeBits sig 6).writeBits (xor >>> tz) sig
    { e with w := w, prevDelta := delta, prevTimestamp := ts, prevValue := vbits }

/-- Encoding a whole sequence and closing the encoder (flush), as
`TimeSeriesBlock::compress` drives it for the bitstream part. -/
def gorillaEncodeBytes (pts : List (Nat × Nat)) : List Byte :=
  ((pts.foldl (fun e p => e.encode p.1 p.2) GorillaEncoder.init).w.flushW).out

/-- State of `gorilla.rs::GorillaDecoder`. -/
structure GorillaDecoder where
  r : BitReader
  firstTimestamp : Nat
  prevTimestamp : Nat
  prevDelta : Int
  prevValue : Nat
  firstValue : Bool
deriving Repr, DecidableEq

/-- `GorillaDecoder::new` (gorilla.rs:255-269): reads the 64-bit first
timestamp eagerly; a read failure propagates. -/
def GorillaDecoder.new (bytes : List Byte) : Except IOErr GorillaDecoder :=
  match BitReader.readBits ⟨bytes, 0, 0⟩ 64 with
  | .error e => .error e
  | .ok (ts, r) =>
    .ok { r := r, firstTimestamp := ts, prevTimestamp := ts, prevDelta := 0
          prevValue := 0, firstValue := true }

/-- Sign extension as the decoder does it: `bits | !mask` on an `i64` when the
sign bit is set, i.e. subtracting the class width. -/
def signExt (bits signBit sub : Nat) : Int :=
  if bits &&& signBit ≠ 0 then (bits : Int) - sub else (bits : Int)

/-- The timestamp-prefix parse of `GorillaDecoder::decode` (gorilla.rs:296-377)
after the first prefix bit turned out to be 1.  Returns `ok none` where the
source converts an unexpected EOF into `Ok(None)`, and `error` where a read
error propagates through `?`. -/
def readDodTail (r : BitReader) : Except IOErr (Option (Int × BitReader)) :=
  match r.readBits 1 with
  | .error _ => .ok none
  | .ok (b2, r) =>
    if b2 = 0 then
      match r.readBits 7 with
      | .error e => .error e
      | .ok (bits, r) => .ok (some (signExt bits 0x40 128, r))
    else
      match r.readBits 1 with
      | .error _ => .ok none
      | .ok (b3, r) =>
        if b3 = 0 then
          match r.readBits 9 with
          | .error e => .error e
          | .ok (bits, r) => .ok (some (signExt bits 0x100 512, r))
        else
          match r.readBits 1 with
          | .error _ => .ok none
          | .ok (b4, r) =>
            if b4 = 0 then
              match r.readBits 12 with
              | .error e => .error e
              | .ok (bits, r) => .ok (some (signExt bits 0x800 4096, r))
            else
              match r.readBits 32 with
              | .error e => .error e
              | .ok (bits, r) => .ok (some (signExt bits (2 ^ 31) (2 ^ 32), r))

/-- `GorillaDecoder::decode` (gorilla.rs:272-414). -/
def GorillaDecoder.decode (d : GorillaDecoder) :
    Except IOErr (Option ((Nat × Nat) × GorillaDecoder)) :=
  if d.firstValue then
    match d.r.readBits 64 with
    | .error _ => .ok none
    | .ok (vbits, r) =>
      .ok (some ((d.firstTimestamp, vbits),
        { d with r := r, prevValue := vbits, firstValue := false }))
  else
    match d.r.readBits 1 with
    | .error _ => .ok none
    | .ok (b1, r) =>
      let dodRes : Except IOErr (Option (Int × BitReader)) :=
        if b1 = 0 then .ok (some (0, r)) else readDodTail r
      match dodRes with
      | .error e => .error e
      | .ok none => .ok none
      | .ok (some (dod, r)) =>
        let delta := wrapI64 (d.prevDelta + dod)
        let ts := fromI64 (wrapI64 (toI64 d.prevTimestamp + delta))
        match r.readBits 1 with
        | .error _ => .ok none
        | .ok (vb, r) =>
          if vb = 0 then
            .ok (some ((ts, d.prevValue),
              { d with r := r, prevDelta := delta, prevTimestamp := ts }))
          else
            match r.readBits 5 with
            | .error e => .error e
            | .ok (lz, r) =>
              match r.readBits 6 with
              | .error e => .error e
              | .ok (sig, r) =>
                match r.readBits sig with
                | .error e => .error e
                | .ok (mb, r) =>
                  let shifted := shl64 mb (subU8 (subU8 64 lz) sig)
                  let vbits := d.prevValue ^^^ shifted
                  .ok (some ((ts, vbits),
                    { d with r := r, prevDelta := delta, prevTimestamp := ts
                             prevValue := vbits }))

/-- `GorillaDecoder::decode_all` (gorilla.rs:417-425), fuel-bounded; `none`
models a run that exceeds the fuel (the source loop can fail to terminate
once the reader's bit count has wrapped). -/
def decodeAllAux : Nat → GorillaDecoder → List (Nat × Nat) →
    Option (Except IOErr (List (Nat × Nat)))
  | 0, _, _ => none
  | fuel + 1, d, acc =>
    match d.decode with
    | .error e => some (.error e)
    | .ok none => some (.ok acc)
    | .ok (some (p, d')) => decodeAllAux fuel d' (acc ++ [p])

def gorillaDecodeAll (fuel : Nat) (bytes : List Byte) :
    Option (Except IOErr (List (Nat × Nat))) :=
  match GorillaDecoder.new bytes with
  | .error e => some (.error e)
  | .ok d => decodeAllAux fuel d []

/-! ## Data model (types.rs) -/

/-- `types.rs::DataPoint`.  Tags and fields are association lists standing for
the hash maps (list order = iteration order); field values are f64 bit
patterns. -/
structure DataPoint where
  timestamp : Nat
  tags : List (List Nat × List Nat)
  fields : List (List Nat × Nat)
deriving Repr, DecidableEq

/-- `types.rs::SeriesKey`. -/
structure SeriesKey where
  measurement : List Nat
  tags : List (List Nat × List Nat)
deriving Repr, DecidableEq

/-- `types.rs::QueryFilter`. -/
structure QueryFilter where
  measurement : Option (List Nat)
  timeRange : Nat × Nat
  tags : List (List Nat × List Nat)
  fields : List (List Nat)
deriving Repr, DecidableEq

/-- `HashMap::insert`: replace the value at the key if present, otherwise
append the pair. -/
def insertAssoc {κ ν : Type} [DecidableEq κ] : List (κ × ν) → κ → ν → List (κ × ν)
  | [], k, v => [(k, v)]
  | (k', v') :: rest, k, v =>
    if k' = k then (k, v) :: rest else (k', v') :: insertAssoc rest k v

/-- `HashMap::get`. -/
def lookupAssoc {κ ν : Type} [DecidableEq κ] : List (κ × ν) → κ → Option ν
  | [], _ => none
  | (k', v) :: rest, k => if k' = k then some v else lookupAssoc rest k

/-- `map.entry(k).or_insert_with(Vec::new).push(x)`. -/
def pushAssoc {κ ν : Type} [DecidableEq κ] : List (κ × List ν) → κ → ν → List (κ × List ν)
  | [], k, x => [(k, [x])]
  | (k', l) :: rest, k, x =>
    if k' = k then (k', l ++ [x]) :: rest else (k', l) :: pushAssoc rest k x

/-! ## WAL record format (wal.rs) -/

/-- Big-endian byte serialization of the low `w` bytes of `n`
(`to_be_bytes`). -/
def beBytes (w n : Nat) : List Byte :=
  (List.range w).map fun i => n / 2 ^ (8 * (w - 1 - i)) % 256

/-- Little-endian value of a byte list (`from_le_bytes`). -/
def leValue (bs : List Byte) : Nat :=
  bs.foldr (fun b acc => acc * 256 + b) 0

/-- `Wal::append_data_point` (wal.rs:34-77): one record, all multi-byte
integers big-endian; the f64 field value is its bit pattern in big-endian
byte order. -/
def appendDataPointBytes (p : DataPoint) : List Byte :=
  beBytes 8 p.timestamp ++ beBytes 4 p.tags.length ++
    (p.tags.foldl
      (fun acc kv => acc ++ beBytes 4 kv.1.length ++ kv.1 ++ beBytes 4 kv.2.length ++ kv.2)
      []) ++
    beBytes 4 p.fields.length ++
    (p.fields.foldl
      (fun acc kv => acc ++ beBytes 4 kv.1.length ++ kv.1 ++ beBytes 8 kv.2) [])

/-- `reader.read_exact` over a list-backed stream: `none` is the
`UnexpectedEof` failure. -/
def readExact (n : Nat) (s : List Byte) : Option (List Byte × List Byte) :=
  if n ≤ s.length then some (s.take n, s.drop n) else none

/-- One byte is a UTF-8 continuation byte. -/
def isCont (b : Nat) : Bool := 128 ≤ b && b ≤ 191

/-- `String::from_utf8` validity (RFC 3629 ranges). -/
def isUtf8 : List Nat → Bool
  | [] => true
  | b :: rest =>
    if b ≤ 127 then isUtf8 rest
    else
      match rest with
      | [] => false
      | c1 :: rest1 =>
        if 194 ≤ b && b ≤ 223 then isCont c1 && isUtf8 rest1
        else
          match rest1 with
          | [] => false
          | c2 :: rest2 =>
            if b = 224 then (160 ≤ c1 && c1 ≤ 191) && isCont c2 && isUtf8 rest2
            else if (225 ≤ b && b ≤ 236) || b = 238 || b = 239 then
              isCont c1 && isCont c2 && isUtf8 rest2
            else if b = 237 then (128 ≤ c1 && c1 ≤ 159) && isCont c2 && isUtf8 rest2
            else
              match rest2 with
              | [] => false
              | c3 :: rest3 =>
                if b = 240 then
                  (144 ≤ c1 && c1 ≤ 191) && isCont c2 && isCont c3 && isUtf8 rest3
                else if 241 ≤ b && b ≤ 243 then
                  isCont c1 && isCont c2 && isCont c3 && isUtf8 rest3
                else if b = 244 then
                  (128 ≤ c1 && c1 ≤ 143) && isCont c2 && isCont c3 && isUtf8 rest3
                else false

/-- The tag-reading loop of `Wal::load_points` (wal.rs:199-265).  All counts
and lengths are parsed little-endian, exactly as the source does.  `none`
models `read_failed = true` (break out of the record loop); an invalid UTF-8
key skips to the next tag without consuming the value bytes, as the source's
`continue` does.  The fuel bounds iterations; each iteration consumes at
least four bytes, so `s.length + 1` fuel never runs out before `count`
does. -/
def parseTags : Nat → Nat → List Byte → DataPoint → Option (List Byte × DataPoint)
  | 0, _, s, p => some (s, p)
  | _ + 1, 0, s, p => some (s, p)
  | fuel + 1, count + 1, s, p =>
    match readExact 4 s with
    | none => none
    | some (klb, s) =>
      match readExact (leValue klb) s with
      | none => none
      | some (key, s) =>
        if isUtf8 key then
          match readExact 4 s with
          | none => none
          | some (vlb, s) =>
            match readExact (leValue vlb) s with
            | none => none
            | some (val, s) =>
              if isUtf8 val then
                parseTags fuel count s { p with tags := insertAssoc p.tags key val }
              else parseTags fuel count s p
        else parseTags fuel count s p

/-- The field-reading loop of `Wal::load_points` (wal.rs:283-329); the f64
value is parsed with `from_le_bytes`. -/
def parseFields : Nat → Nat → List Byte → DataPoint → Option (List Byte × DataPoint)
  | 0, _, s, p => some (s, p)
  | _ + 1, 0, s, p => some (s, p)
  | fuel + 1, count + 1, s, p =>
    match readExact 4 s with
    | none => none
    | some (klb, s) =>
      match readExact (leValue klb) s with
      | none => none
      | some (key, s) =>
        if isUtf8 key then
          match readExact 8 s with
          | none => none
          | some (vb, s) =>
            parseFields fuel count s { p with fields := insertAssoc p.fields key (leValue vb) }
        else parseFields fuel count s p

/-- The byte string "measurement". -/
def measurementTagKey : List Nat := [109, 101, 97, 115, 117, 114, 101, 109, 101, 110, 116]

/-- The byte string "default". -/
def defaultSeriesName : List Nat := [100, 101, 102, 97, 117, 108, 116]

/-- The record loop of `Wal::load_points` (wal.rs:164-342): reads the
timestamp with `from_le_bytes` (although it was written big-endian), then the
tag and field sections; any unexpected EOF ends the loop with the records
recovered so far.  Each iteration consumes at least 12 bytes, so
`s.length + 1` fuel suffices. -/
def loadLoop : Nat → List Byte → List (List Nat × List DataPoint) →
    List (List Nat × List DataPoint)
  | 0, _, res => res
  | fuel + 1, s, res =>
    match readExact 8 s with
    | none => res
    | some (tsb, s) =>
      match readExact 4 s with
      | none => res
      | some (tcb, s) =>
        match parseTags (s.length + 1) (leValue tcb) s ⟨leValue tsb, [], []⟩ with
        | none => res
        | some (s, p) =>
          match readExact 4 s with
          | none => res
          | some (fcb, s) =>
            match parseFields (s.length + 1) (leValue fcb) s p with
            | none => res
            | some (s, p) =>
              let skey := (lookupAssoc p.tags measurementTagKey).getD defaultSeriesName
              loadLoop fuel s (pushAssoc res skey p)

/-- `Wal::load_points` (wal.rs:147-346) on the raw bytes of the log file. -/
def loadPoints (bytes : List Byte) : List (List Nat × List DataPoint) :=
  loadLoop (bytes.length + 1) bytes []

/-! ## SSTable (sstable.rs) and the multi-field block -/

/-- `error.rs::Error`, payload strings dropped. -/
inductive DbError
  | ioError
  | dataError
  | compressionError
  | memMapError
  | jsonError
deriving Repr, DecidableEq

/-- Little-endian byte serialization of the low `w` bytes of `n`
(`to_le_bytes`). -/
def leBytes (w n : Nat) : List Byte :=
  (List.range w).map fun i => n / 2 ^ (8 * i) % 256

/-- Stable insertion into a timestamp-sorted list: the new point goes after
every point whose timestamp is less than or equal to its own. -/
def insSorted (x : Nat × Nat) : List (Nat × Nat) → List (Nat × Nat)
  | [] => [x]
  | y :: ys => if x.1 < y.1 then x :: y :: ys else y :: insSorted x ys

/-- A stable sort by timestamp.  Rust's `sort_by_key` is a stable sort, and
all stable sorts agree pointwise, so this insertion sort is extensionally the
source's sort. -/
def sortByTs (l : List (Nat × Nat)) : List (Nat × Nat) :=
  l.foldl (fun acc x => insSorted x acc) []

/-- `Vec::dedup_by_key` on the timestamp: of each run of consecutive points
with equal timestamp, the first is kept. -/
def dedupAux (prev : Nat) : List (Nat × Nat) → List (Nat × Nat)
  | [] => []
  | y :: ys => if y.1 = prev then dedupAux prev ys else y :: dedupAux y.1 ys

def dedupByTs : List (Nat × Nat) → List (Nat × Nat)
  | [] => []
  | x :: xs => x :: dedupAux x.1 xs

/-- Keep the last of each run of consecutive points with equal timestamp. -/
def dedupLastAux (x : Nat × Nat) : List (Nat × Nat) → List (Nat × Nat)
  | [] => [x]
  | y :: ys => if y.1 = x.1 then dedupLastAux y ys else x :: dedupLastAux y ys

def dedupLastByTs : List (Nat × Nat) → List (Nat × Nat)
  | [] => []
  | x :: xs => dedupLastAux x xs

/-- Modelled from the spec: `MultiFieldBlock` is used by `sstable.rs` but its
definition is not among the provided sources.  Spec §4.2: one Gorilla block
per field of the series, each block holding the `(timestamp, value)` stream
of the points where that field is set. -/
structure MultiFieldBlock where
  fields : List (List Nat × List (Nat × Nat))
deriving Repr, DecidableEq

/-- Modelled from the spec: `MultiFieldBlock::add_point` distributes a
point's fields into the per-field streams (spec §4.2 multi-field block). -/
def MultiFieldBlock.addPoint (b : MultiFieldBlock) (ts : Nat)
    (fields : List (List Nat × Nat)) : MultiFieldBlock :=
  ⟨fields.foldl (fun acc kv => pushAssoc acc kv.1 (ts, kv.2)) b.fields⟩

/-- Modelled from the spec: per-field block bytes, `u32 count` (little-endian)
followed by the Gorilla bitstream of the points sorted ascending by timestamp
with last-write-wins on duplicates (spec §4.2 block container, §4.5 create). -/
def fieldBlockBytes (pts : List (Nat × Nat)) : List Byte :=
  let srt := dedupLastByTs (sortByTs pts)
  leBytes 4 srt.length ++ gorillaEncodeBytes srt

/-- Modelled from the spec: `MultiFieldBlock::compress` assembles, per field,
`name_len: u32, name_bytes, block_len: u32, block_bytes` after a `u32`
field count, all little-endian (spec §4.5 payload region). -/
def MultiFieldBlock.compress (b : MultiFieldBlock) : List Byte :=
  leBytes 4 b.fields.length ++
    b.fields.foldl
      (fun acc kv =>
        let blk := fieldBlockBytes kv.2
        acc ++ leBytes 4 kv.1.length ++ kv.1 ++ leBytes 4 blk.length ++ blk)
      []

/-- Modelled from the spec: the per-field payload parser of
`MultiFieldBlock::decompress` (spec §4.5 payload region, §4.2 block
container: a count mismatch is a data error).  Fuel bounds the loop. -/
def parseFieldBlocks : Nat → Nat → List Byte →
    List (List Nat × List (Nat × Nat)) →
    Except DbError (List (List Nat × List (Nat × Nat)))
  | 0, _, _, acc => .ok acc
  | _ + 1, 0, _, acc => .ok acc
  | fuel + 1, count + 1, s, acc =>
    match readExact 4 s with
    | none => .error .dataError
    | some (nlb, s) =>
      match readExact (leValue nlb) s with
      | none => .error .dataError
      | some (name, s) =>
        match readExact 4 s with
        | none => .error .dataError
        | some (blb, s) =>
          match readExact (leValue blb) s with
          | none => .error .dataError
          | some (blk, s) =>
            match readExact 4 blk with
            | none => .error .dataError
            | some (cntb, stream) =>
              match gorillaDecodeAll (8 * stream.length + leValue cntb + 2) stream with
              | none => .error .compressionError
              | some (.error _) => .error .compressionError
              | some (.ok pts) =>
                if pts.length = leValue cntb then
                  parseFieldBlocks fuel count s (acc ++ [(name, pts)])
                else .error .dataError

/-- Modelled from the spec: `MultiFieldBlock::decompress`. -/
def MultiFieldBlock.decompress (data : List Byte) : Except DbError MultiFieldBlock :=
  match readExact 4 data with
  | none => .error .dataError
  | some (fcb, s) =>
    match parseFieldBlocks (s.length + 1) (leValue fcb) s [] with
    | .error e => .error e
    | .ok fields => .ok ⟨fields⟩

/-- Modelled from the spec: `MultiFieldBlock::query` keeps, for each requested
field (all fields when the request list is empty), the points whose timestamp
lies in the inclusive range (spec §4.5 query step c). -/
def MultiFieldBlock.query (b : MultiFieldBlock) (start stop : Nat)
    (fields : List (List Nat)) : List (List Nat × List (Nat × Nat)) :=
  b.fields.foldl
    (fun acc kv =>
      if fields = [] ∨ kv.1 ∈ fields then
        let pts := kv.2.filter fun p => start ≤ p.1 && p.1 ≤ stop
        if pts = [] then acc else acc ++ [(kv.1, pts)]
      else acc)
    []

/-- `sstable.rs::SSTable`: the optional memory map (as raw file bytes) and the
series index.  The path field plays no role in the modelled behavior. -/
structure SSTable where
  mmap : Option (List Byte)
  seriesIndex : List (SeriesKey × (Nat × Nat))
deriving Repr, DecidableEq

/-- The index-size estimate of `SSTable::create` (sstable.rs:55-61): a
binary-format guess of the serialized series-key size. -/
def estKeySize (sk : SeriesKey) : Nat :=
  4 + sk.measurement.length + 4 +
    sk.tags.foldl (fun a kv => a + 4 + kv.1.length + 4 + kv.2.length) 0

/-- `data_start_pos` of `SSTable::create` (sstable.rs:51-64): 4 bytes of
series count plus the estimated index size. -/
def sstDataStartPos (snapshot : List (SeriesKey × List DataPoint)) : Nat :=
  4 + snapshot.foldl (fun a kv => a + estKeySize kv.1 + 16) 0

/-- Length of the serde_json escape of one string byte (bytes needing no
escape cost 1; quote and backslash cost 2; control bytes cost 2 or 6). -/
def jsonEscLen (b : Nat) : Nat :=
  if b = 34 ∨ b = 92 then 2
  else if b < 32 then (if b = 8 ∨ b = 9 ∨ b = 10 ∨ b = 12 ∨ b = 13 then 2 else 6)
  else 1

/-- Length of a serde_json string literal for the byte string `s`. -/
def jsonStrLen (s : List Nat) : Nat := 2 + s.foldl (fun a b => a + jsonEscLen b) 0

/-- Length of the serde_json object for a tag map. -/
def jsonMapLen (m : List (List Nat × List Nat)) : Nat :=
  2 + m.foldl (fun a kv => a + jsonStrLen kv.1 + 1 + jsonStrLen kv.2) 0 +
    (m.length - 1)

/-- Length of `serde_json::to_vec(series_key)` for a `SeriesKey`
(`{"measurement":...,"tags":{...}}`, fields in declaration order). -/
def jsonSeriesKeyLen (sk : SeriesKey) : Nat :=
  1 + 13 + 1 + jsonStrLen sk.measurement + 1 + 6 + 1 + jsonMapLen sk.tags + 1

/-- End offset of the index actually written back by `SSTable::create`
(sstable.rs:79-90): starting at offset 4, each entry is a `u32` key length,
the serde_json series key, and 16 bytes of offset/length. -/
def sstIndexWriteEnd (snapshot : List (SeriesKey × List DataPoint)) : Nat :=
  4 + snapshot.foldl (fun a kv => a + 4 + jsonSeriesKeyLen kv.1 + 16) 0

/-- The per-series `MultiFieldBlock` built by `SSTable::create`
(sstable.rs:30-41). -/
def seriesBlock (pts : List DataPoint) : MultiFieldBlock :=
  pts.foldl (fun b p => b.addPoint p.timestamp p.fields) ⟨[]⟩

/-- The `(offset, length)` entries recorded by the payload-writing loop of
`SSTable::create` (sstable.rs:67-76): consecutive compressed blocks starting
at `data_start_pos`. -/
def sstSeriesPositions (snapshot : List (SeriesKey × List DataPoint)) :
    List (SeriesKey × (Nat × Nat)) :=
  (snapshot.foldl
    (fun (st : List (SeriesKey × (Nat × Nat)) × Nat) kv =>
      let len := (seriesBlock kv.2).compress.length
      (st.1 ++ [(kv.1, (st.2, len))], st.2 + len))
    ([], sstDataStartPos snapshot)).1

/-- `SSTable::create` (sstable.rs:25-114): the returned value always has
`mmap = None` (sstable.rs:109-113). -/
def SSTable.create (snapshot : List (SeriesKey × List DataPoint)) : SSTable :=
  { mmap := none, seriesIndex := sstSeriesPositions snapshot }

/-- The tag-filter test shared by `SSTable::query` (sstable.rs:193-202) and
`SimpleTSDB::query` (db.rs:169-178): every filter tag must be present with an
equal value. -/
def tagsMatch (ftags : List (List Nat × List Nat)) (stags : List (List Nat × List Nat)) : Bool :=
  ftags.all fun kv => lookupAssoc stags kv.1 = some kv.2

/-- The measurement test: skip the series when the filter names a different
measurement. -/
def measurementMatch (fm : Option (List Nat)) (m : List Nat) : Bool :=
  match fm with
  | none => true
  | some m' => m = m'

/-- One query result: series key to field name to points. -/
abbrev QResult := List (SeriesKey × List (List Nat × List (Nat × Nat)))

/-- The series loop of `SSTable::query` (sstable.rs:184-229): filter by
measurement and tags, bounds-check the recorded slice (an out-of-range slice
is an immediate `DataError`), decompress (a decompression failure skips the
series), and collect the in-range points. -/
def sstSeriesLoop (mmap : List Byte) (filter : QueryFilter) :
    List (SeriesKey × (Nat × Nat)) → QResult → Except DbError QResult
  | [], res => .ok res
  | (sk, pos, len) :: rest, res =>
    if measurementMatch filter.measurement sk.measurement ∧
        tagsMatch filter.tags sk.tags then
      if mmap.length < pos + len then .error .dataError
      else
        match MultiFieldBlock.decompress ((mmap.drop pos).take len) with
        | .error _ => sstSeriesLoop mmap filter rest res
        | .ok blk =>
          let fr := blk.query filter.timeRange.1 filter.timeRange.2 filter.fields
          if fr = [] then sstSeriesLoop mmap filter rest res
          else sstSeriesLoop mmap filter rest (res ++ [(sk, fr)])
    else sstSeriesLoop mmap filter rest res

/-- `SSTable::query` (sstable.rs:174-233): with no memory map loaded the
query is the `MemMapError` (sstable.rs:178-181). -/
def SSTable.query (sst : SSTable) (filter : QueryFilter) : Except DbError QResult :=
  match sst.mmap with
  | none => .error .memMapError
  | some mmap => sstSeriesLoop mmap filter sst.seriesIndex []

/-! ## Store (db.rs) -/

/-- The in-process state of `db.rs::SimpleTSDB` relevant to the claims: the
MemTable mapping and the opened-SSTable list. -/
structure DbState where
  memtable : List (SeriesKey × List DataPoint)
  sstables : List SSTable
deriving Repr, DecidableEq

/-- The per-point field extraction of the MemTable scan
(db.rs:188-204): for each in-range point, the requested fields (or all of the
point's fields when the filter requests none) contribute `(ts, value)`
pairs. -/
def extractFieldPoints (filter : QueryFilter) (points : List DataPoint) :
    List (List Nat × List (Nat × Nat)) :=
  points.foldl
    (fun acc p =>
      if filter.timeRange.1 ≤ p.timestamp ∧ p.timestamp ≤ filter.timeRange.2 then
        let fieldsToExtract :=
          if filter.fields = [] then p.fields.map (·.1)
          else filter.fields.filter fun f => (lookupAssoc p.fields f).isSome
        fieldsToExtract.foldl
          (fun acc f =>
            match lookupAssoc p.fields f with
            | some v => pushAssoc acc f (p.timestamp, v)
            | none => acc)
          acc
      else acc)
    []

/-- The MemTable half of `SimpleTSDB::query` (db.rs:158-210). -/
def memtableQuery (filter : QueryFilter)
    (memtable : List (SeriesKey × List DataPoint)) : QResult :=
  memtable.foldl
    (fun res kv =>
      if measurementMatch filter.measurement kv.1.measurement ∧
          tagsMatch filter.tags kv.1.tags then
        let fp := extractFieldPoints filter kv.2
        if fp = [] then res else res ++ [(kv.1, fp)]
      else res)
    []

/-- `field_entry.append(&mut points)` during the SSTable merge
(db.rs:221-224). -/
def appendFieldPts : List (List Nat × List (Nat × Nat)) → List Nat →
    List (Nat × Nat) → List (List Nat × List (Nat × Nat))
  | [], f, pts => [(f, pts)]
  | (f', l) :: rest, f, pts =>
    if f' = f then (f', l ++ pts) :: rest else (f', l) :: appendFieldPts rest f pts

/-- Merging one SSTable's result for one series into the accumulated result
(db.rs:218-225): `result.entry(sk).or_default`, then per-field append. -/
def mergeSeries : QResult → SeriesKey → List (List Nat × List (Nat × Nat)) → QResult
  | [], sk, fields => [(sk, fields.foldl (fun acc kv => appendFieldPts acc kv.1 kv.2) [])]
  | (sk', fl) :: rest, sk, fields =>
    if sk' = sk then
      (sk', fields.foldl (fun acc kv => appendFieldPts acc kv.1 kv.2) fl) :: rest
    else (sk', fl) :: mergeSeries rest sk fields

/-- The SSTable loop of `SimpleTSDB::query` (db.rs:213-226): any SSTable
query error propagates immediately through `?`. -/
def sstLoop (filter : QueryFilter) : List SSTable → QResult → Except DbError QResult
  | [], res => .ok res
  | sst :: rest, res =>
    match sst.query filter with
    | .error e => .error e
    | .ok r => sstLoop filter rest (r.foldl (fun res kv => mergeSeries res kv.1 kv.2) res)

/-- The final sort-and-dedup pass of `SimpleTSDB::query` (db.rs:229-234). -/
def finalizeResult (res : QResult) : QResult :=
  res.map fun kv => (kv.1, kv.2.map fun fp => (fp.1, dedupByTs (sortByTs fp.2)))

/-- `SimpleTSDB::query` (db.rs:154-238). -/
def dbQuery (db : DbState) (filter : QueryFilter) : Except DbError QResult :=
  match sstLoop filter db.sstables (memtableQuery filter db.memtable) with
  | .error e => .error e
  | .ok res => .ok (finalizeResult res)

/-- `SimpleTSDB::write_point` (db.rs:110-128).  The WAL append is a fallible
external effect; its outcome is passed in as `walOutcome`, exactly as the
`?` on `self.wal.append_data_point(&point)` consumes it: an error returns
before the MemTable is touched. -/
def writePoint (walOutcome : Except DbError Unit) (db : DbState)
    (measurement : List Nat) (p : DataPoint) : Except DbError Unit × DbState :=
  let sk : SeriesKey :=
    { measurement := measurement
      tags := p.tags.foldl (fun acc kv => insertAssoc acc kv.1 kv.2) [] }
  match walOutcome with
  | .error e => (.error e, db)
  | .ok _ => (.ok (), { db with memtable := pushAssoc db.memtable sk p })

/-- One successful iteration of the background flush task (db.rs:88-101)
once the threshold is met and `SSTable::create` succeeded: the created value
is pushed into the shared SSTable set and the MemTable is cleared. -/
def flushStep (db : DbState) : DbState :=
  { memtable := [], sstables := db.sstables ++ [SSTable.create db.memtable] }

/-- Writing a vector of bit fields and flushing, as spec §4.1 describes the
round-trip experiment. -/
def bitWriteList (fs : List (Nat × Nat)) : List Byte :=
  ((fs.foldl (fun (w : BitWriter) f => w.writeBits f.1 f.2) ⟨[], 0, 0⟩).flushW).out

/-- Reading back a list of field widths in order. -/
def bitReadList : List Nat → BitReader → Option (List Nat)
  | [], _ => some []
  | n :: ns, r =>
    match r.readBits n with
    | .error _ => none
    | .ok (v, r') => (bitReadList ns r').map (v :: ·)

/-! ## Helper lemmas on sorting and deduplication -/

theorem mem_insSorted (z x : Nat × Nat) (l : List (Nat × Nat)) :
    z ∈ insSorted x l ↔ z = x ∨ z ∈ l := by
  induction l with
  | nil => simp [insSorted]
  | cons y ys ih =>
    simp only [insSorted]
    split
    · simp only [List.mem_cons]
    · simp only [List.mem_cons, ih]
      tauto

theorem sortedLe_insSorted (x : Nat × Nat) (l : List (Nat × Nat))
    (h : List.Pairwise (fun a b : Nat × Nat => a.1 ≤ b.1) l) :
    List.Pairwise (fun a b : Nat × Nat => a.1 ≤ b.1) (insSorted x l) := by
  induction l with
  | nil => simp [insSorted]
  | cons y ys ih =>
    rw [List.pairwise_cons] at h
    obtain ⟨hy, hys⟩ := h
    simp only [insSorted]
    split
    · rename_i hlt
      refine List.Pairwise.cons ?_ (List.Pairwise.cons hy hys)
      intro z hz
      rcases List.mem_cons.mp hz with rfl | hz
      · exact Nat.le_of_lt hlt
      · exact Nat.le_trans (Nat.le_of_lt hlt) (hy z hz)
    · rename_i hnlt
      refine List.Pairwise.cons ?_ (ih hys)
      intro z hz
      rcases (mem_insSorted z x ys).mp hz with rfl | hz
      · exact Nat.le_of_not_lt hnlt
      · exact hy z hz

theorem sortedLe_sortFold (l : List (Nat × Nat)) : ∀ acc,
    List.Pairwise (fun a b : Nat × Nat => a.1 ≤ b.1) acc →
    List.Pairwise (fun a b : Nat × Nat => a.1 ≤ b.1)
      (l.foldl (fun acc x => insSorted x acc) acc) := by
  induction l with
  | nil => exact fun _ h => h
  | cons x xs ih => exact fun acc h => ih _ (sortedLe_insSorted x acc h)

theorem sortedLe_sortByTs (l : List (Nat × Nat)) :
    List.Pairwise (fun a b : Nat × Nat => a.1 ≤ b.1) (sortByTs l) :=
  sortedLe_sortFold l [] List.Pairwise.nil

theorem dedupAux_lt (l : List (Nat × Nat)) : ∀ k : Nat,
    (∀ z ∈ l, k ≤ z.1) →
    List.Pairwise (fun a b : Nat × Nat => a.1 ≤ b.1) l →
    (∀ z ∈ dedupAux k l, k < z.1) ∧
      List.Pairwise (fun a b : Nat × Nat => a.1 < b.1) (dedupAux k l) := by
  induction l with
  | nil => exact fun k _ _ => ⟨by simp [dedupAux], by simp [dedupAux]⟩
  | cons y ys ih =>
    intro k hk hs
    rw [List.pairwise_cons] at hs
    obtain ⟨hy, hys⟩ := hs
    simp only [dedupAux]
    split
    · rename_i heq
      exact ih k (fun z hz => by rw [← heq]; exact hy z hz) hys
    · rename_i hne
      have hky : k < y.1 :=
        Nat.lt_of_le_of_ne (hk y (List.mem_cons_self y ys)) fun h => hne h.symm
      obtain ⟨hgt, hpw⟩ := ih y.1 hy hys
      refine ⟨?_, List.Pairwise.cons hgt hpw⟩
      intro z hz
      rcases List.mem_cons.mp hz with rfl | hz
      · exact hky
      · exact Nat.lt_trans hky (hgt z hz)

theorem pairwise_lt_dedup_sort (l : List (Nat × Nat)) :
    List.Pairwise (fun a b : Nat × Nat => a.1 < b.1) (dedupByTs (sortByTs l)) := by
  have hs := sortedLe_sortByTs l
  cases h : sortByTs l with
  | nil => simp [dedupByTs]
  | cons x xs =>
    rw [h, List.pairwise_cons] at hs
    obtain ⟨hx, hxs⟩ := hs
    obtain ⟨hgt, hpw⟩ := dedupAux_lt xs x.1 hx hxs
    simpa [dedupByTs] using List.Pairwise.cons hgt hpw

theorem sstLoop_error_of_mem (filter : QueryFilter) :
    ∀ (l : List SSTable) (res : QResult) (s : SSTable), s ∈ l →
      s.query filter = .error .memMapError →
      ∃ e, sstLoop filter l res = .error e := by
  intro l
  induction l with
  | nil => intro _ s hs _; cases hs
  | cons t ts ih =>
    intro res s hs hq
    cases ht : t.query filter with
    | error e => exact ⟨e, by simp only [sstLoop, ht]⟩
    | ok r =>
      rcases List.mem_cons.mp hs with rfl | hs'
      · rw [ht] at hq; cases hq
      · obtain ⟨e, he⟩ :=
          ih (r.foldl (fun res kv => mergeSeries res kv.1 kv.2) res) s hs' hq
        exact ⟨e, by simp only [sstLoop, ht]; exact he⟩

/-! ## Claim theorems -/

/-- Claim C1: the WAL write/replay round-trip fails on the code.  For the
point with timestamp 1, no tags and one field `a = bits 1`,
`append_data_point` writes big-endian integers but `load_points` parses them
little-endian: the timestamp 1 is read back as 2^56 and the field count 1 is
read as 16777216, after which the reader hits end of file and drops the
record, so replay recovers no point at all and no query can return the
point's fields. -/
theorem wal_replay_loses_appended_point :
    loadPoints (appendDataPointBytes ⟨1, [], [([97], 1)]⟩) = [] ∧
      leValue (beBytes 8 1) = 72057594037927936 ∧
      leValue (beBytes 4 1) = 16777216 :=
  ⟨by decide, by decide, by decide⟩

/-- Claim C2: the Gorilla round-trip fails on the code.  For the single pair
(timestamp 1, value bits 1), `write_bits(_, 64)` masks the value with
`(1 << 64) - 1`, which wraps to 0 in release builds (and panics in debug
builds), so the verbatim first timestamp and value are written as sixteen
zero bytes and decoding yields `[(0, 0)]`, not the original sequence. -/
theorem gorilla_roundtrip_fails :
    gorillaEncodeBytes [(1, 1)] = List.replicate 16 0 ∧
      gorillaDecodeAll 4 (gorillaEncodeBytes [(1, 1)]) =
        some (.ok [(0, 0)]) ∧
      [((0 : Nat), (0 : Nat))] ≠ [(1, 1)] :=
  ⟨by decide, by decide, by decide⟩

/-- Claim C3: the index space reserved by `SSTable::create` is not large
enough for the index it writes back.  For a snapshot with the single series
`{measurement = "m", tags = {}}`, the reservation uses a binary-size estimate
(25 bytes, so the payload starts at offset 29 and the series' offset is
recorded as 29), but the write-back serializes the key as serde_json (49
bytes per entry), so the index region ends at offset 53 and overwrites the
start of the payload the recorded offset points into. -/
theorem sstable_index_overlaps_payload :
    sstDataStartPos [(⟨[109], []⟩, [⟨0, [], [([97], 1)]⟩])] = 29 ∧
      sstIndexWriteEnd [(⟨[109], []⟩, [⟨0, [], [([97], 1)]⟩])] = 53 ∧
      (SSTable.create [(⟨[109], []⟩, [⟨0, [], [([97], 1)]⟩])]).seriesIndex =
        [(⟨[109], []⟩, (29, 33))] ∧
      sstDataStartPos [(⟨[109], []⟩, [⟨0, [], [([97], 1)]⟩])] <
        sstIndexWriteEnd [(⟨[109], []⟩, [⟨0, [], [([97], 1)]⟩])] :=
  ⟨by decide, by decide, by decide, by decide⟩

/-- Claim C4: every `SSTable` value returned by `SSTable::create` has
`mmap = None`, its `query` therefore always returns the `MemoryMap` error,
and since the flush task publishes exactly this value into the shared set
and `SimpleTSDB::query` propagates SSTable errors with `?`, every query
issued after a successful in-process flush returns an error. -/
theorem flushed_sstable_queries_error (db : DbState) (filter : QueryFilter) :
    (SSTable.create db.memtable).mmap = none ∧
      (SSTable.create db.memtable).query filter = .error .memMapError ∧
      ∃ e, dbQuery (flushStep db) filter = .error e := by
  refine ⟨rfl, rfl, ?_⟩
  obtain ⟨e, he⟩ := sstLoop_error_of_mem filter (flushStep db).sstables
    (memtableQuery filter (flushStep db).memtable) (SSTable.create db.memtable)
    (by simp [flushStep]) rfl
  exact ⟨e, by simp only [dbQuery, he]⟩

/-- Claim C5 counterexample: with the points (ts 10, field f = bits 1) and
(ts 10, field f = bits 2) written in that order into the same series, the
query over [0, 100] returns the FIRST point's value 1 for f, not the second
point's value 2 as the claim states: the stable sort keeps insertion order
and `dedup_by_key` keeps the first of consecutive duplicates. -/
theorem dup_timestamp_returns_first_not_second :
    dbQuery
      (writePoint (.ok ()) (writePoint (.ok ()) ⟨[], []⟩ [99] ⟨10, [], [([102], 1)]⟩).2
        [99] ⟨10, [], [([102], 2)]⟩).2
      ⟨none, (0, 100), [], [[102]]⟩ =
      .ok [(⟨[99], []⟩, [([102], [(10, 1)])])] ∧ (1 : Nat) ≠ 2 :=
  ⟨by decide, by decide⟩

/-- Claim C5 amended: duplicate-timestamp resolution is FIRST-write-wins.
For every two points p1 then p2 written in that order with identical series,
field and timestamp (and no other data present), a query covering that
timestamp returns exactly p1's value for that field. -/
theorem dup_timestamp_first_write_wins (ts v1 v2 lo hi : Nat) (m f : List Nat)
    (h1 : lo ≤ ts) (h2 : ts ≤ hi) :
    dbQuery
      (writePoint (.ok ()) (writePoint (.ok ()) ⟨[], []⟩ m ⟨ts, [], [(f, v1)]⟩).2
        m ⟨ts, [], [(f, v2)]⟩).2
      ⟨none, (lo, hi), [], [f]⟩ =
      .ok [(⟨m, []⟩, [(f, [(ts, v1)])])] := by
  simp [writePoint, pushAssoc, dbQuery, sstLoop, memtableQuery, measurementMatch,
    tagsMatch, extractFieldPoints, lookupAssoc, finalizeResult, sortByTs,
    insSorted, dedupByTs, dedupAux, h1, h2]

/-- Witness for the amended C5 theorem at ts 10, values 1 and 2, range
[0, 100], measurement "c", field "f". -/
theorem dup_timestamp_first_write_wins_wit :
    dbQuery
      (writePoint (.ok ()) (writePoint (.ok ()) ⟨[], []⟩ [99] ⟨10, [], [([102], 1)]⟩).2
        [99] ⟨10, [], [([102], 2)]⟩).2
      ⟨none, (0, 100), [], [[102]]⟩ =
      .ok [(⟨[99], []⟩, [([102], [(10, 1)])])] :=
  dup_timestamp_first_write_wins 10 1 2 0 100 [99] [102] (by decide) (by decide)

/-- Claim C6: the 7-bit delta-of-delta class does not round-trip on the code.
For the points (ts 0, v 0) then (ts 60, v 0), the delta-of-delta 60 lies in
[-63, 64]; the encoder calls `write_bits(0b10, 2)`, which appends the LOW bit
first, so the stream carries bits 0, 1 and then the payload.  The decoder
reads one bit at a time, sees the 0 first, and takes the `dod = 0` branch:
it never reads the 7-bit payload, reconstructs timestamp 0 instead of 60, and
desynchronizes, producing three points from a two-point stream.  (The first
point's 64-bit fields are additionally written as zeros, see C2.) -/
theorem dod_small_class_misdecoded :
    gorillaEncodeBytes [(0, 0), (60, 0)] = List.replicate 16 0 ++ [242, 0] ∧
      gorillaDecodeAll 6 (gorillaEncodeBytes [(0, 0), (60, 0)]) =
        some (.ok [(0, 0), (0, 0), (0, 0)]) ∧
      (0 : Nat) ≠ 60 :=
  ⟨by decide, by decide, by decide⟩

/-- Claim C7 counterexample: the reader's bit count does not stay
well-defined.  Reading 16 bits from a one-byte stream returns the 8 buffered
bits (value 171) but the `u8` subtraction `8 - 16` wraps to 248, and the
subsequent 8-bit read on the exhausted stream returns `Ok` instead of
signalling end-of-stream as the contract requires. -/
theorem bitreader_bit_count_underflows :
    BitReader.readBits ⟨[171], 0, 0⟩ 16 = .ok (171, ⟨[], 0, 248⟩) ∧
      BitReader.readBits ⟨[], 0, 248⟩ 8 ≠ .error .eof :=
  ⟨by decide, by decide⟩

/-- Claim C7 amended: for `read_bits(n)` with 1 ≤ n ≤ 63 on an exhausted
stream, if zero bits are buffered the reader signals end-of-stream, and if
some bits (fewer than n) are buffered it returns those buffered bits — but
the internal bit count then wraps modulo 256 (it underflows by `n - bib`),
so subsequent reads do not behave per the contract. -/
theorem bitreader_eof_contract (bits bib buf : Nat) (h1 : 1 ≤ bits)
    (h63 : bits ≤ 63) (hb : buf < 2 ^ bib) :
    BitReader.readBits ⟨[], buf, 0⟩ bits = .error .eof ∧
      (0 < bib → bib < bits →
        BitReader.readBits ⟨[], buf, bib⟩ bits =
          .ok (buf, ⟨[], 0, bib + 256 - bits⟩)) := by
  obtain ⟨n, rfl⟩ : ∃ n, bits = n + 1 := ⟨bits - 1, by omega⟩
  constructor
  · simp [BitReader.readBits, fillLoop]
  · intro hpos hlt
    have hfill : fillLoop (n + 1) (n + 1) ⟨[], buf, bib⟩ = .ok ⟨[], buf, bib⟩ := by
      simp [fillLoop, hlt, Nat.pos_iff_ne_zero.mp hpos]
    have hpow : 2 ^ (n + 1) < 2 ^ 64 :=
      Nat.pow_lt_pow_right Nat.one_lt_two (by omega)
    have hmask : shl64 1 (n + 1) - 1 = 2 ^ (n + 1) - 1 := by
      unfold shl64
      rw [Nat.mod_eq_of_lt (by omega : n + 1 < 64), Nat.shiftLeft_eq, one_mul,
        Nat.mod_eq_of_lt hpow]
    have hlt2 : buf < 2 ^ (n + 1) :=
      Nat.lt_of_lt_of_le hb (Nat.pow_le_pow_right (by omega) (by omega))
    have h1v : buf &&& (shl64 1 (n + 1) - 1) = buf := by
      rw [hmask, Nat.and_pow_two_sub_one_eq_mod]
      exact Nat.mod_eq_of_lt hlt2
    have h2v : shr64 buf (n + 1) = 0 := by
      unfold shr64
      rw [Nat.mod_eq_of_lt (by omega : n + 1 < 64), Nat.shiftRight_eq_div_pow]
      exact Nat.div_eq_of_lt hlt2
    have h3v : subU8 bib (n + 1) = bib + 256 - (n + 1) := by
      unfold subU8
      omega
    simp only [BitReader.readBits, hfill, h1v, h2v, h3v]
    simp

/-- Witness for the amended C7 theorem at n = 16, 8 buffered bits with
value 171. -/
theorem bitreader_eof_contract_wit :
    BitReader.readBits ⟨[], 171, 0⟩ 16 = .error .eof ∧
      BitReader.readBits ⟨[], 171, 8⟩ 16 = .ok (171, ⟨[], 0, 248⟩) := by
  obtain ⟨ha, hb⟩ := bitreader_eof_contract 16 8 171 (by decide) (by decide) (by decide)
  exact ⟨ha, hb (by decide) (by decide)⟩

/-- Claim C8: the BitIO round-trip fails on the code for n = 64, the width
the codec uses for the verbatim first timestamp and value.
`write_bits(1, 64)` masks the value with `(1 << 64) - 1`, which wraps to 0 in
release builds (panics in debug), so eight zero bytes are emitted and the
read-back returns 0 rather than the low 64 bits of the value written. -/
theorem bitio_roundtrip_fails_at_64 :
    bitWriteList [(1, 64)] = List.replicate 8 0 ∧
      bitReadList [64] ⟨List.replicate 8 0, 0, 0⟩ = some [0] ∧
      (0 : Nat) ≠ 1 :=
  ⟨by decide, by decide, by decide⟩

/-- Claim C9: for every query result and every (series, field) entry in it,
the returned point list is sorted strictly ascending by timestamp (hence no
two points share a timestamp): the final pass of `SimpleTSDB::query` sorts
by timestamp and dedups consecutive equal timestamps. -/
theorem query_result_sorted_nodup (db : DbState) (filter : QueryFilter)
    (res : QResult) (sk : SeriesKey) (fl : List (List Nat × List (Nat × Nat)))
    (f : List Nat) (l : List (Nat × Nat))
    (hq : dbQuery db filter = .ok res) (hsk : (sk, fl) ∈ res) (hf : (f, l) ∈ fl) :
    List.Pairwise (fun a b : Nat × Nat => a.1 < b.1) l := by
  unfold dbQuery at hq
  cases h : sstLoop filter db.sstables (memtableQuery filter db.memtable) with
  | error e => rw [h] at hq; cases hq
  | ok r0 =>
    rw [h] at hq
    replace hq := Except.ok.inj hq
    subst hq
    simp only [finalizeResult, List.mem_map] at hsk
    obtain ⟨a, _, hae⟩ := hsk
    have hfl : fl = a.2.map fun fp => (fp.1, dedupByTs (sortByTs fp.2)) :=
      (congrArg Prod.snd hae).symm
    subst hfl
    simp only [List.mem_map] at hf
    obtain ⟨b, _, hbe⟩ := hf
    have hl : l = dedupByTs (sortByTs b.2) := (congrArg Prod.snd hbe).symm
    subst hl
    exact pairwise_lt_dedup_sort b.2

/-- Witness for C9 at a one-series, one-point database. -/
theorem query_result_sorted_nodup_wit :
    List.Pairwise (fun a b : Nat × Nat => a.1 < b.1) [(10, 5)] :=
  query_result_sorted_nodup ⟨[(⟨[99], []⟩, [⟨10, [], [([102], 5)]⟩])], []⟩
    ⟨none, (0, 100), [], []⟩ [(⟨[99], []⟩, [([102], [(10, 5)])])]
    ⟨[99], []⟩ [([102], [(10, 5)])] [102] [(10, 5)]
    (by decide) (by decide) (by decide)

/-- Claim C10: if the WAL append fails, `write_point` returns that error to
the caller and the database state — in particular the MemTable — is left
unchanged: the `?` on `append_data_point` returns before the MemTable lock
is taken. -/
theorem write_point_wal_failure_atomic (e : DbError) (db : DbState)
    (m : List Nat) (p : DataPoint) :
    (writePoint (.error e) db m p).1 = .error e ∧
      (writePoint (.error e) db m p).2 = db :=
  ⟨rfl, rfl⟩

end RyTSDB
